import Mathlib

/-!
Verification of the Gallery Session Controller of the image-upload app
(`src/App.tsx`), as a shallow embedding in Lean.

The controller state consists of the `images` list, the `selectedImage`
reference and the `modalVisible` flag (the "viewer open" flag of the spec).
Platform interactions (permission service, library picker, camera capture,
confirmation prompt) are modelled as explicit inputs; the `Math.random`
token generator is modelled as an oracle `rng : Nat → String` together with
a counter of how many tokens have been consumed; `Date.now()` is an explicit
`now : Nat` input.  Dialogs and platform launches are recorded in an
explicit effect trace.
-/

namespace ImageUpload

/-- `interface UploadedImage` of `src/App.tsx` (lines 21-26).
`size?: number` becomes `Option Nat`. -/
structure UploadedImage where
  id : String
  uri : String
  name : String
  size : Option Nat
deriving DecidableEq

/-- The three `useState` pieces of the `App` component (lines 29-31):
`images`, `selectedImage`, `modalVisible`. -/
structure AppState where
  images : List UploadedImage
  selectedImage : Option UploadedImage
  modalVisible : Bool
deriving DecidableEq

/-- Initial state: empty list, no selection, modal hidden. -/
def initialState : AppState :=
  { images := [], selectedImage := none, modalVisible := false }

/-- One asset as returned by the expo image picker: `uri`, optional
`fileName`, optional `fileSize`.  A missing or `null` file name is `none`. -/
structure Asset where
  uri : String
  fileName : Option String
  fileSize : Option Nat
deriving DecidableEq

/-- Outcome of a platform permission request. -/
inductive PermissionStatus where
  | granted
  | denied
deriving DecidableEq

/-- Result of a picker / camera invocation: either the user cancelled, or a
list of assets was returned. -/
inductive PickerResult where
  | canceled
  | assets (l : List Asset)
deriving DecidableEq

/-- The user's answer to the remove-confirmation prompt. -/
inductive ConfirmChoice where
  | cancelChoice
  | confirmChoice
deriving DecidableEq

/-- Observable platform effects: permission requests, alert dialogs
(title and message), and picker/camera launches. -/
inductive Effect where
  | mediaLibraryPermissionRequest
  | cameraPermissionRequest
  | alertShown (title message : String)
  | libraryPickerLaunched
  | cameraLaunched
deriving DecidableEq

/-- Result of one asynchronous controller operation: the new state, the new
random-token counter, and the trace of platform effects. -/
structure OpResult where
  state : AppState
  ctr : Nat
  effects : List Effect
deriving DecidableEq

/-- Builds one `UploadedImage` from an asset (lines 57-62 and 85-90):
`id` is the consumed random token, `name` is `asset.fileName || fallback`
(JavaScript `||`: a missing or empty file name falls back), `size` is
`asset.fileSize` passed through. -/
def mkRecord (tok : String) (fallbackName : String) (asset : Asset) : UploadedImage :=
  { id := tok
    uri := asset.uri
    name :=
      match asset.fileName with
      | none => fallbackName
      | some nm => if nm = "" then fallbackName else nm
    size := asset.fileSize }

/-- `result.assets.map(...)` of `pickImage` (lines 57-62): each asset is
mapped to a record whose `id` is the next token of the oracle, consumed
left to right. -/
def buildRecords (rng : Nat → String) (ctr : Nat) (fallbackName : String) :
    List Asset → List UploadedImage
  | [] => []
  | a :: rest => mkRecord (rng ctr) fallbackName a :: buildRecords rng (ctr + 1) fallbackName rest

/-- `requestPermissions` (lines 33-43): asks for media-library permission;
on denial shows the one informational alert and returns `false`. -/
def requestPermissions (perm : PermissionStatus) : Bool × List Effect :=
  match perm with
  | .granted => (true, [.mediaLibraryPermissionRequest])
  | .denied =>
      (false,
        [.mediaLibraryPermissionRequest,
         .alertShown "Permission Required"
           "Sorry, we need camera roll permissions to upload images!"])

/-- `pickImage` (lines 45-66): request permission (abort when denied),
launch the library picker, and when the result is not cancelled append one
record per asset, in picker order.  `now` is `Date.now()`. -/
def pickImage (perm : PermissionStatus) (res : PickerResult) (rng : Nat → String)
    (ctr now : Nat) (s : AppState) : OpResult :=
  match requestPermissions perm with
  | (false, effs) => { state := s, ctr := ctr, effects := effs }
  | (true, effs) =>
    match res with
    | .canceled => { state := s, ctr := ctr, effects := effs ++ [.libraryPickerLaunched] }
    | .assets l =>
        let newImages := buildRecords rng ctr ("image_" ++ toString now ++ ".jpg") l
        { state := { s with images := s.images ++ newImages }
          ctr := ctr + l.length
          effects := effs ++ [.libraryPickerLaunched] }

/-- `takePhoto` (lines 68-94): request camera permission (alert and abort
when denied), launch the camera, and when the result is not cancelled and
has a first asset append one record built from it. -/
def takePhoto (perm : PermissionStatus) (res : PickerResult) (rng : Nat → String)
    (ctr now : Nat) (s : AppState) : OpResult :=
  match perm with
  | .denied =>
      { state := s, ctr := ctr
        effects :=
          [.cameraPermissionRequest,
           .alertShown "Permission Required"
             "Sorry, we need camera permissions to take photos!"] }
  | .granted =>
    match res with
    | .canceled =>
        { state := s, ctr := ctr, effects := [.cameraPermissionRequest, .cameraLaunched] }
    | .assets l =>
      match l.head? with
      | none =>
          { state := s, ctr := ctr, effects := [.cameraPermissionRequest, .cameraLaunched] }
      | some a =>
          { state :=
              { s with
                images := s.images ++ [mkRecord (rng ctr) ("photo_" ++ toString now ++ ".jpg") a] }
            ctr := ctr + 1
            effects := [.cameraPermissionRequest, .cameraLaunched] }

/-- `removeImage` (lines 96-111): shows the confirmation prompt; `Cancel`
does nothing, `Remove` filters the record with the given id out of
`images`.  Nothing else in the state is touched. -/
def removeImage (id : String) (choice : ConfirmChoice) (s : AppState) : AppState :=
  match choice with
  | .cancelChoice => s
  | .confirmChoice => { s with images := s.images.filter (fun img => img.id != id) }

/-- `openLightbox` (lines 113-116): set the selected image and show the
modal, unconditionally. -/
def openLightbox (image : UploadedImage) (s : AppState) : AppState :=
  { s with selectedImage := some image, modalVisible := true }

/-- `closeLightbox` (lines 118-121): clear the selected image and hide the
modal. -/
def closeLightbox (s : AppState) : AppState :=
  { s with selectedImage := none, modalVisible := false }

/-- Rounds `b * 100 / 1048576` half-up to an integer number of hundredths
and renders it with exactly two decimal digits: the behaviour of
`(bytes / 1024 / 1024).toFixed(2)` for a natural `bytes` (division by a
power of two is exact in the double, and `toFixed` picks the nearer
hundredth, the larger one at a tie). -/
def toFixed2MB (b : Nat) : String :=
  let n := (b * 100 * 2 + 1048576) / (1048576 * 2)
  toString (n / 100) ++ "." ++ (if n % 100 < 10 then "0" ++ toString (n % 100) else toString (n % 100))

/-- `formatFileSize` (lines 123-126): `!bytes` is true for a missing or
zero byte count; otherwise megabytes with two decimals and a `" MB"`
suffix. -/
def formatFileSize (bytes : Option Nat) : String :=
  match bytes with
  | none => "Unknown size"
  | some b => if b = 0 then "Unknown size" else toFixed2MB b ++ " MB"

/-- One user-driven controller operation, with the platform answers it
received as parameters. -/
inductive Event where
  | pickEv (perm : PermissionStatus) (res : PickerResult) (now : Nat)
  | takeEv (perm : PermissionStatus) (res : PickerResult) (now : Nat)
  | removeEv (id : String) (choice : ConfirmChoice)
  | openEv (img : UploadedImage)
  | closeEv

/-- One step of the session: applies one event to the state and the
random-token counter. -/
def step (rng : Nat → String) (p : AppState × Nat) : Event → AppState × Nat
  | .pickEv perm res now =>
      let r := pickImage perm res rng p.2 now p.1
      (r.state, r.ctr)
  | .takeEv perm res now =>
      let r := takePhoto perm res rng p.2 now p.1
      (r.state, r.ctr)
  | .removeEv id choice => (removeImage id choice p.1, p.2)
  | .openEv img => (openLightbox img p.1, p.2)
  | .closeEv => (closeLightbox p.1, p.2)

/-- Runs a whole session from the empty initial state. -/
def run (rng : Nat → String) (evs : List Event) : AppState × Nat :=
  evs.foldl (step rng) (initialState, 0)

/-- The ids of the records currently stored, in list order. -/
def imageIds (s : AppState) : List String :=
  s.images.map (fun img => img.id)

/-- All ids of the current records were produced by the oracle at an index
below the current counter. -/
def IdsFrom (rng : Nat → String) (p : AppState × Nat) : Prop :=
  ∀ img ∈ p.1.images, ∃ k, k < p.2 ∧ img.id = rng k

section Lemmas

/-- A string ending in `" MB"` is never the string `"Unknown size"`. -/
lemma append_MB_ne_unknown (s : String) : s ++ " MB" ≠ "Unknown size" := by
  intro h
  have hd : s.data ++ (" MB").data = ("Unknown size").data := congrArg String.data h
  have h1 : (s.data ++ (" MB").data).getLast? = some 'B' := by
    have hmb : (" MB").data = [' ', 'M', 'B'] := rfl
    rw [hmb, show s.data ++ [' ', 'M', 'B'] = (s.data ++ [' ', 'M']) ++ ['B'] by
      simp]
    exact List.getLast?_concat _
  rw [hd] at h1
  have h2 : ("Unknown size").data.getLast? = some 'e' := rfl
  rw [h2] at h1
  exact absurd (Option.some.inj h1) (by decide)

/-- `buildRecords` produces one record per asset. -/
lemma buildRecords_length (rng : Nat → String) (fb : String) (l : List Asset) (ctr : Nat) :
    (buildRecords rng ctr fb l).length = l.length := by
  induction l generalizing ctr with
  | nil => rfl
  | cons a rest ih => simp [buildRecords, ih]

/-- The record at position `i` of `buildRecords` is built from the asset at
position `i`, with the oracle token at offset `i` from the starting
counter. -/
lemma buildRecords_get? (rng : Nat → String) (fb : String) (l : List Asset) (ctr i : Nat) :
    (buildRecords rng ctr fb l).get? i
      = (l.get? i).map (fun a => mkRecord (rng (ctr + i)) fb a) := by
  induction l generalizing ctr i with
  | nil => simp [buildRecords]
  | cons a rest ih =>
    cases i with
    | zero => simp [buildRecords]
    | succ j =>
      simp only [buildRecords, List.get?_cons_succ, ih (ctr + 1) j]
      have : ctr + 1 + j = ctr + (j + 1) := by omega
      rw [this]

/-- Every record built by `buildRecords` carries a token of the oracle at
an index between the starting counter and the final one. -/
lemma mem_buildRecords_id (rng : Nat → String) (fb : String) (l : List Asset)
    (ctr : Nat) (img : UploadedImage) (hmem : img ∈ buildRecords rng ctr fb l) :
    ∃ k, ctr ≤ k ∧ k < ctr + l.length ∧ img.id = rng k := by
  induction l generalizing ctr with
  | nil => simp [buildRecords] at hmem
  | cons a rest ih =>
    simp only [buildRecords, List.mem_cons] at hmem
    rcases hmem with h | h
    · exact ⟨ctr, Nat.le_refl _, by simp, by rw [h]; rfl⟩
    · obtain ⟨k, hk1, hk2, hk3⟩ := ih (ctr + 1) h
      exact ⟨k, by omega, by simp only [List.length_cons]; omega, hk3⟩

/-- With an injective oracle the records built in one pick all get distinct
ids. -/
lemma buildRecords_ids_nodup (rng : Nat → String) (hinj : Function.Injective rng)
    (fb : String) (l : List Asset) (ctr : Nat) :
    ((buildRecords rng ctr fb l).map (fun img => img.id)).Nodup := by
  induction l generalizing ctr with
  | nil => simp [buildRecords]
  | cons a rest ih =>
    simp only [buildRecords, List.map_cons, List.nodup_cons]
    refine ⟨?_, ih (ctr + 1)⟩
    intro hmem
    obtain ⟨img, himg, hid⟩ := List.mem_map.mp hmem
    obtain ⟨k, hk1, _, hk3⟩ := mem_buildRecords_id rng fb rest (ctr + 1) img himg
    have hrr : rng ctr = rng k := by
      have : (mkRecord (rng ctr) fb a).id = rng ctr := rfl
      rw [← hid, hk3] at this
      exact this.symm
    have := hinj hrr
    omega

/-- `step` on a pick event with granted permission and a non-cancelled
result appends the built records and advances the counter. -/
lemma step_pick_granted_assets (rng : Nat → String) (p : AppState × Nat)
    (l : List Asset) (now : Nat) :
    step rng p (.pickEv .granted (.assets l) now)
      = ({ p.1 with
            images := p.1.images ++ buildRecords rng p.2 ("image_" ++ toString now ++ ".jpg") l },
         p.2 + l.length) := rfl

lemma step_pick_denied (rng : Nat → String) (p : AppState × Nat)
    (res : PickerResult) (now : Nat) :
    step rng p (.pickEv .denied res now) = p := rfl

lemma step_pick_canceled (rng : Nat → String) (p : AppState × Nat) (now : Nat) :
    step rng p (.pickEv .granted .canceled now) = p := rfl

/-- `step` on a capture event with granted permission and a first asset
appends one built record and advances the counter by one. -/
lemma step_take_granted_cons (rng : Nat → String) (p : AppState × Nat)
    (a : Asset) (rest : List Asset) (now : Nat) :
    step rng p (.takeEv .granted (.assets (a :: rest)) now)
      = ({ p.1 with
            images := p.1.images ++ [mkRecord (rng p.2) ("photo_" ++ toString now ++ ".jpg") a] },
         p.2 + 1) := rfl

lemma step_take_denied (rng : Nat → String) (p : AppState × Nat)
    (res : PickerResult) (now : Nat) :
    step rng p (.takeEv .denied res now) = p := rfl

lemma step_take_canceled (rng : Nat → String) (p : AppState × Nat) (now : Nat) :
    step rng p (.takeEv .granted .canceled now) = p := rfl

lemma step_take_nil (rng : Nat → String) (p : AppState × Nat) (now : Nat) :
    step rng p (.takeEv .granted (.assets []) now) = p := rfl

lemma step_remove (rng : Nat → String) (p : AppState × Nat)
    (id : String) (choice : ConfirmChoice) :
    step rng p (.removeEv id choice) = (removeImage id choice p.1, p.2) := rfl

lemma step_open (rng : Nat → String) (p : AppState × Nat) (img : UploadedImage) :
    step rng p (.openEv img) = (openLightbox img p.1, p.2) := rfl

lemma step_close (rng : Nat → String) (p : AppState × Nat) :
    step rng p .closeEv = (closeLightbox p.1, p.2) := rfl

/-- One step preserves the id invariant: all stored ids come from oracle
indices below the counter, and they are pairwise distinct. -/
lemma step_preserves_inv (rng : Nat → String) (hinj : Function.Injective rng)
    (p : AppState × Nat) (e : Event)
    (h1 : IdsFrom rng p) (h2 : (imageIds p.1).Nodup) :
    IdsFrom rng (step rng p e) ∧ (imageIds (step rng p e).1).Nodup := by
  obtain ⟨s, c⟩ := p
  cases e with
  | pickEv perm res now =>
    cases perm with
    | denied => rw [step_pick_denied]; exact ⟨h1, h2⟩
    | granted =>
      cases res with
      | canceled => rw [step_pick_canceled]; exact ⟨h1, h2⟩
      | assets l =>
        rw [step_pick_granted_assets]
        constructor
        · intro img hmem
          simp only [List.mem_append] at hmem
          rcases hmem with h | h
          · obtain ⟨k, hk1, hk2⟩ := h1 img h
            exact ⟨k, by simp only at hk1 ⊢; omega, hk2⟩
          · obtain ⟨k, hk1, hk2, hk3⟩ := mem_buildRecords_id rng _ l c img h
            exact ⟨k, by simp only at hk2 ⊢; omega, hk3⟩
        · show ((s.images ++ buildRecords rng c _ l).map (fun img => img.id)).Nodup
          rw [List.map_append]
          refine List.Nodup.append h2 (buildRecords_ids_nodup rng hinj _ l c) ?_
          intro x hx1 hx2
          obtain ⟨img, himg, hid⟩ := List.mem_map.mp hx1
          obtain ⟨img', himg', hid'⟩ := List.mem_map.mp hx2
          obtain ⟨j, hj1, hj2⟩ := h1 img himg
          obtain ⟨k, hk1, _, hk3⟩ := mem_buildRecords_id rng _ l c img' himg'
          have : rng j = rng k := by rw [← hj2, hid, ← hid', hk3]
          have := hinj this
          omega
  | takeEv perm res now =>
    cases perm with
    | denied => rw [step_take_denied]; exact ⟨h1, h2⟩
    | granted =>
      cases res with
      | canceled => rw [step_take_canceled]; exact ⟨h1, h2⟩
      | assets l =>
        cases l with
        | nil => rw [step_take_nil]; exact ⟨h1, h2⟩
        | cons a rest =>
          rw [step_take_granted_cons]
          constructor
          · intro img hmem
            simp only [List.mem_append, List.mem_singleton] at hmem
            rcases hmem with h | h
            · obtain ⟨k, hk1, hk2⟩ := h1 img h
              exact ⟨k, by simp only at hk1 ⊢; omega, hk2⟩
            · exact ⟨c, by simp, by rw [h]; rfl⟩
          · show ((s.images ++ [mkRecord (rng c) _ a]).map (fun img => img.id)).Nodup
            rw [List.map_append]
            refine List.Nodup.append h2 (by simp) ?_
            intro x hx1 hx2
            obtain ⟨img, himg, hid⟩ := List.mem_map.mp hx1
            obtain ⟨j, hj1, hj2⟩ := h1 img himg
            simp only [List.map_cons, List.map_nil, List.mem_singleton] at hx2
            have : rng j = rng c := by rw [← hj2, hid, hx2]; rfl
            have := hinj this
            omega
  | removeEv id choice =>
    rw [step_remove]
    cases choice with
    | cancelChoice => exact ⟨h1, h2⟩
    | confirmChoice =>
      constructor
      · intro img hmem
        exact h1 img (List.mem_filter.mp hmem).1
      · show ((s.images.filter (fun img => img.id != id)).map (fun img => img.id)).Nodup
        exact ((List.filter_sublist _).map _).nodup h2
  | openEv img => rw [step_open]; exact ⟨h1, h2⟩
  | closeEv => rw [step_close]; exact ⟨h1, h2⟩

/-- One step never brings back an id that is no longer stored, provided it
was produced at an oracle index below the counter and the oracle is
injective. -/
lemma step_preserves_absent (rng : Nat → String) (hinj : Function.Injective rng)
    (x : String) (p : AppState × Nat) (e : Event)
    (h1 : ∃ k, k < p.2 ∧ x = rng k) (h2 : x ∉ imageIds p.1) :
    (∃ k, k < (step rng p e).2 ∧ x = rng k) ∧ x ∉ imageIds (step rng p e).1 := by
  obtain ⟨s, c⟩ := p
  obtain ⟨k, hk, hx⟩ := h1
  cases e with
  | pickEv perm res now =>
    cases perm with
    | denied => rw [step_pick_denied]; exact ⟨⟨k, hk, hx⟩, h2⟩
    | granted =>
      cases res with
      | canceled => rw [step_pick_canceled]; exact ⟨⟨k, hk, hx⟩, h2⟩
      | assets l =>
        rw [step_pick_granted_assets]
        refine ⟨⟨k, by simp only at hk ⊢; omega, hx⟩, ?_⟩
        intro hmem
        show False
        have : x ∈ (s.images ++ buildRecords rng c _ l).map (fun img => img.id) := hmem
        rw [List.map_append, List.mem_append] at this
        rcases this with h | h
        · exact h2 h
        · obtain ⟨img, himg, hid⟩ := List.mem_map.mp h
          obtain ⟨k', hk'1, _, hk'3⟩ := mem_buildRecords_id rng _ l c img himg
          have : rng k = rng k' := by rw [← hx, ← hid, hk'3]
          have := hinj this
          omega
  | takeEv perm res now =>
    cases perm with
    | denied => rw [step_take_denied]; exact ⟨⟨k, hk, hx⟩, h2⟩
    | granted =>
      cases res with
      | canceled => rw [step_take_canceled]; exact ⟨⟨k, hk, hx⟩, h2⟩
      | assets l =>
        cases l with
        | nil => rw [step_take_nil]; exact ⟨⟨k, hk, hx⟩, h2⟩
        | cons a rest =>
          rw [step_take_granted_cons]
          refine ⟨⟨k, by simp only at hk ⊢; omega, hx⟩, ?_⟩
          intro hmem
          show False
          have : x ∈ (s.images ++ [mkRecord (rng c) _ a]).map (fun img => img.id) := hmem
          rw [List.map_append, List.mem_append] at this
          rcases this with h | h
          · exact h2 h
          · simp only [List.map_cons, List.map_nil, List.mem_singleton] at h
            have : rng k = rng c := by rw [← hx, h]; rfl
            have := hinj this
            omega
  | removeEv id choice =>
    rw [step_remove]
    cases choice with
    | cancelChoice => exact ⟨⟨k, hk, hx⟩, h2⟩
    | confirmChoice =>
      refine ⟨⟨k, hk, hx⟩, ?_⟩
      intro hmem
      apply h2
      have hsub : (imageIds (removeImage id .confirmChoice s)).Sublist (imageIds s) := by
        show ((s.images.filter (fun img => img.id != id)).map (fun img => img.id)).Sublist
          (s.images.map (fun img => img.id))
        exact (List.filter_sublist _).map _
      exact hsub.subset hmem
  | openEv img => rw [step_open]; exact ⟨⟨k, hk, hx⟩, h2⟩
  | closeEv => rw [step_close]; exact ⟨⟨k, hk, hx⟩, h2⟩

/-- The id invariant holds along every run from the initial state. -/
lemma run_inv (rng : Nat → String) (hinj : Function.Injective rng) (evs : List Event) :
    IdsFrom rng (run rng evs) ∧ (imageIds (run rng evs).1).Nodup := by
  have general : ∀ (l : List Event) (p : AppState × Nat),
      IdsFrom rng p → (imageIds p.1).Nodup →
      IdsFrom rng (l.foldl (step rng) p) ∧ (imageIds (l.foldl (step rng) p).1).Nodup := by
    intro l
    induction l with
    | nil => intro p ha hb; exact ⟨ha, hb⟩
    | cons e rest ih =>
      intro p ha hb
      have h := step_preserves_inv rng hinj p e ha hb
      exact ih (step rng p e) h.1 h.2
  refine general evs (initialState, 0) ?_ ?_
  · intro img hmem
    simp [initialState] at hmem
  · simp [imageIds, initialState]

end Lemmas

/-- C1: the claim says a confirmed `removeImage(id)` with `id` equal to the
selected record's id also closes the viewer (`selected = none`,
`viewerOpen = false`).  The code's `removeImage` only filters `images`: at
the concrete state whose single record is also selected and viewed, the
confirmed removal empties `images` but leaves the record selected and the
modal visible. -/
theorem C1_remove_selected_leaves_viewer_open :
    removeImage "x1" .confirmChoice
        { images := [⟨"x1", "u", "a.jpg", none⟩]
          selectedImage := some ⟨"x1", "u", "a.jpg", none⟩
          modalVisible := true }
      = { images := []
          selectedImage := some ⟨"x1", "u", "a.jpg", none⟩
          modalVisible := true } := by
  decide

/-- C2: the claim says that after any operation sequence from the initial
state, an open viewer refers to an id present in `images`.  The concrete
run below — import one asset, open the viewer on the resulting record,
confirm its removal — ends with the modal visible and the selected record's
id no longer in `images`, violating the invariant. -/
theorem C2_invariant_violated_by_reachable_run :
    (run (fun _ => "t0")
        [Event.pickEv .granted (.assets [⟨"u", some "a.jpg", none⟩]) 5,
         Event.openEv ⟨"t0", "u", "a.jpg", none⟩,
         Event.removeEv "t0" .confirmChoice]).1
      = { images := []
          selectedImage := some ⟨"t0", "u", "a.jpg", none⟩
          modalVisible := true } := by
  decide

/-- C3: `formatFileSize` returns `"Unknown size"` exactly for a missing or
zero byte count, and otherwise the byte count divided by 1,048,576 rounded
to two decimal places with the `" MB"` suffix; in particular the three
example values of the spec. -/
theorem C3_formatFileSize_spec :
    formatFileSize none = "Unknown size"
    ∧ formatFileSize (some 0) = "Unknown size"
    ∧ formatFileSize (some 1048576) = "1.00 MB"
    ∧ formatFileSize (some 1572864) = "1.50 MB"
    ∧ (∀ bytes : Option Nat,
        formatFileSize bytes = "Unknown size" ↔ bytes = none ∨ bytes = some 0)
    ∧ (∀ b : Nat, b ≠ 0 → formatFileSize (some b) = toFixed2MB b ++ " MB") := by
  refine ⟨rfl, rfl, by decide, by decide, ?_, ?_⟩
  · intro bytes
    constructor
    · intro h
      match bytes with
      | none => exact Or.inl rfl
      | some b =>
        by_cases hb : b = 0
        · exact Or.inr (by rw [hb])
        · exact absurd h (by simpa [formatFileSize, hb] using append_MB_ne_unknown (toFixed2MB b))
    · rintro (h | h) <;> rw [h] <;> rfl
  · intro b hb
    simp [formatFileSize, hb]

/-- C3 witness: the non-"Unknown size" branch evaluated at the concrete
byte count 1048576. -/
theorem C3_formatFileSize_spec_witness :
    formatFileSize (some 1048576) = toFixed2MB 1048576 ++ " MB" :=
  C3_formatFileSize_spec.2.2.2.2.2 1048576 (by decide)

/-- C4: the claim as stated fails on the empty-string file name.  The asset
below provides a file name (the empty string), yet the record built by
`pickImage` carries the synthesized `image_<timestamp>.jpg` name instead of
the provided one, because the source uses the falsy-guarded
`asset.fileName || ...`. -/
theorem C4_present_empty_filename_still_falls_back :
    ((pickImage .granted (.assets [⟨"u", some "", none⟩]) (fun _ => "t0") 0 7
        initialState).state.images.map (fun img => img.name))
      = ["image_7.jpg"]
    ∧ ("image_7.jpg" : String) ≠ "" := by
  constructor
  · decide
  · decide

/-- C4 (amended): for a granted, non-cancelled pick, `pickImage` appends
one record per returned asset, in picker order, leaving the rest of the
state unchanged; the record at position `i` has the freshly consumed oracle
token at offset `i` as id, the asset's file name — or the synthesized
`image_<timestamp>.jpg` when the file name is missing or empty — as name,
and the asset's byte count passed through as size.  A cancelled pick leaves
the state and the counter unchanged. -/
theorem C4_pickImage_appends (rng : Nat → String) (ctr now : Nat) (s : AppState)
    (l : List Asset) :
    (pickImage .granted (.assets l) rng ctr now s).state.images
        = s.images ++ buildRecords rng ctr ("image_" ++ toString now ++ ".jpg") l
    ∧ (pickImage .granted (.assets l) rng ctr now s).state.selectedImage = s.selectedImage
    ∧ (pickImage .granted (.assets l) rng ctr now s).state.modalVisible = s.modalVisible
    ∧ (pickImage .granted (.assets l) rng ctr now s).ctr = ctr + l.length
    ∧ (buildRecords rng ctr ("image_" ++ toString now ++ ".jpg") l).length = l.length
    ∧ (∀ i : Nat,
        (buildRecords rng ctr ("image_" ++ toString now ++ ".jpg") l).get? i
          = (l.get? i).map (fun a =>
              { id := rng (ctr + i)
                uri := a.uri
                name :=
                  match a.fileName with
                  | none => "image_" ++ toString now ++ ".jpg"
                  | some nm => if nm = "" then "image_" ++ toString now ++ ".jpg" else nm
                size := a.fileSize }))
    ∧ (pickImage .granted .canceled rng ctr now s).state = s
    ∧ (pickImage .granted .canceled rng ctr now s).ctr = ctr := by
  refine ⟨rfl, rfl, rfl, rfl, buildRecords_length rng _ l ctr, ?_, rfl, rfl⟩
  intro i
  exact buildRecords_get? rng _ l ctr i

/-- C5: a cancelled `removeImage` is a complete no-op, and a confirmed one
replaces `images` with the records whose id differs, a sublist of the old
list (all other records kept in their existing order). -/
theorem C5_removeImage_cancel_confirm (s : AppState) (id : String) :
    removeImage id .cancelChoice s = s
    ∧ (removeImage id .confirmChoice s).images
        = s.images.filter (fun img => img.id != id)
    ∧ List.Sublist (removeImage id .confirmChoice s).images s.images
    ∧ ∀ img : UploadedImage,
        img ∈ (removeImage id .confirmChoice s).images ↔ img ∈ s.images ∧ img.id ≠ id := by
  refine ⟨rfl, rfl, List.filter_sublist _, ?_⟩
  intro img
  simp [removeImage, List.mem_filter]

/-- C5 witness: the cancel branch evaluated at a concrete state. -/
theorem C5_removeImage_cancel_confirm_witness :
    removeImage "a" .cancelChoice initialState = initialState :=
  (C5_removeImage_cancel_confirm initialState "a").1

/-- C6: a second confirmed `removeImage` with the same id leaves the state
of the first one unchanged (the matching record is already absent), and the
first one indeed removes every record with that id. -/
theorem C6_removeImage_idempotent (s : AppState) (id : String) :
    removeImage id .confirmChoice (removeImage id .confirmChoice s)
        = removeImage id .confirmChoice s
    ∧ ∀ img ∈ (removeImage id .confirmChoice s).images, img.id ≠ id := by
  constructor
  · show ({ removeImage id .confirmChoice s with
        images := (removeImage id .confirmChoice s).images.filter (fun img => img.id != id) } : AppState)
      = removeImage id .confirmChoice s
    simp [removeImage, List.filter_filter]
  · intro img hmem
    have := (List.mem_filter.mp hmem).2
    simpa using this

/-- C6 witness: the idempotence equation evaluated at a concrete one-record
state, with the membership conjunct instantiated there. -/
theorem C6_removeImage_idempotent_witness :
    (⟨"x1", "u", "a.jpg", none⟩ : UploadedImage)
        ∈ (removeImage "zz" .confirmChoice
            { images := [⟨"x1", "u", "a.jpg", none⟩]
              selectedImage := none
              modalVisible := false }).images
      → ("x1" : String) ≠ "zz" :=
  (C6_removeImage_idempotent
    { images := [⟨"x1", "u", "a.jpg", none⟩]
      selectedImage := none
      modalVisible := false } "zz").2 ⟨"x1", "u", "a.jpg", none⟩

/-- C7: the claim quantifies over every sequence of values the random-id
generator may produce, and fails when the generator repeats one: with an
oracle that always answers `"dup"`, importing two assets stores two records
with the same id, so the ids are not pairwise distinct. -/
theorem C7_duplicate_ids_on_colliding_rng :
    imageIds (run (fun _ => "dup")
        [Event.pickEv .granted
          (.assets [⟨"u1", some "a.jpg", none⟩, ⟨"u2", some "b.jpg", none⟩]) 0]).1
      = ["dup", "dup"]
    ∧ ¬ (["dup", "dup"] : List String).Nodup := by
  constructor
  · decide
  · decide

/-- C7 (amended): when the random-token oracle never produces the same
value twice (injectivity), then after every event sequence from the initial
state the stored ids are pairwise distinct, and an id handed out before
some point of the session and no longer stored there — a removed id —
never reappears in `images` in any continuation of the session. -/
theorem C7_ids_distinct_of_injective_rng (rng : Nat → String)
    (hinj : Function.Injective rng) :
    (∀ evs : List Event, (imageIds (run rng evs).1).Nodup)
    ∧ (∀ evs₁ evs₂ : List Event, ∀ x : String,
        (∃ k, k < (run rng evs₁).2 ∧ x = rng k) →
        x ∉ imageIds (run rng evs₁).1 →
        x ∉ imageIds (run rng (evs₁ ++ evs₂)).1) := by
  constructor
  · intro evs
    exact (run_inv rng hinj evs).2
  · intro evs₁ evs₂ x h1 h2
    have general : ∀ (l : List Event) (p : AppState × Nat),
        (∃ k, k < p.2 ∧ x = rng k) → x ∉ imageIds p.1 →
        x ∉ imageIds (l.foldl (step rng) p).1 := by
      intro l
      induction l with
      | nil => intro p _ hb; exact hb
      | cons e rest ih =>
        intro p ha hb
        have h := step_preserves_absent rng hinj x p e ha hb
        exact ih (step rng p e) h.1 h.2
    have hr : run rng (evs₁ ++ evs₂) = evs₂.foldl (step rng) (run rng evs₁) := by
      simp [run, List.foldl_append]
    rw [hr]
    exact general evs₂ (run rng evs₁) h1 h2

/-- C7 witness: the amended theorem applied to a concrete injective oracle
(`n` letters `a` for token number `n`) and a concrete two-asset import. -/
theorem C7_ids_distinct_of_injective_rng_witness :
    (imageIds (run (fun n => String.mk (List.replicate n 'a'))
        [Event.pickEv .granted
          (.assets [⟨"u1", some "a.jpg", none⟩, ⟨"u2", some "b.jpg", none⟩]) 0]).1).Nodup :=
  (C7_ids_distinct_of_injective_rng (fun n => String.mk (List.replicate n 'a'))
    (fun a b h => by simpa using congrArg (fun s => s.data.length) h)).1 _

/-- C8: with the permission service answering `denied`, both `pickImage`
and `takePhoto` leave the whole state and the token counter unchanged, and
their effect trace is exactly one permission request followed by one
informational alert — no picker or camera launch, no second request. -/
theorem C8_permission_denied_aborts (res : PickerResult) (rng : Nat → String)
    (ctr now : Nat) (s : AppState) :
    (pickImage .denied res rng ctr now s).state = s
    ∧ (pickImage .denied res rng ctr now s).ctr = ctr
    ∧ (pickImage .denied res rng ctr now s).effects
        = [.mediaLibraryPermissionRequest,
           .alertShown "Permission Required"
             "Sorry, we need camera roll permissions to upload images!"]
    ∧ (takePhoto .denied res rng ctr now s).state = s
    ∧ (takePhoto .denied res rng ctr now s).ctr = ctr
    ∧ (takePhoto .denied res rng ctr now s).effects
        = [.cameraPermissionRequest,
           .alertShown "Permission Required"
             "Sorry, we need camera permissions to take photos!"] :=
  ⟨rfl, rfl, rfl, rfl, rfl, rfl⟩

/-- C9: `removeImage` never touches `selectedImage` or `modalVisible`, in
the cancel branch and in the confirm branch alike, whatever the id. -/
theorem C9_removeImage_frame (s : AppState) (id : String) (choice : ConfirmChoice) :
    (removeImage id choice s).selectedImage = s.selectedImage
    ∧ (removeImage id choice s).modalVisible = s.modalVisible := by
  cases choice <;> exact ⟨rfl, rfl⟩

/-- C10: `openLightbox` unconditionally stores the given record as selected
and shows the modal, leaving `images` unchanged; the same update happens
when the record is not in the current list. -/
theorem C10_openLightbox_unconditional (s : AppState) (img : UploadedImage) :
    openLightbox img s
        = { images := s.images, selectedImage := some img, modalVisible := true }
    ∧ (img ∉ s.images →
        openLightbox img s
          = { images := s.images, selectedImage := some img, modalVisible := true }) :=
  ⟨rfl, fun _ => rfl⟩

/-- C10 witness: opening the viewer on a record absent from the (empty)
list performs the same update. -/
theorem C10_openLightbox_unconditional_witness :
    openLightbox ⟨"i1", "u", "n.jpg", none⟩ initialState
      = { images := [], selectedImage := some ⟨"i1", "u", "n.jpg", none⟩, modalVisible := true } :=
  (C10_openLightbox_unconditional initialState ⟨"i1", "u", "n.jpg", none⟩).2 (by simp [initialState])

end ImageUpload
